import Mathlib

/-!
Verification of the extraction-result normalization pipeline of
`src/backend/event_generation/nlp_parsers/gemini_parser.py` (method
`GeminiParser.parse`, lines 190-277: the response-processing stage that turns
the JSON text returned by the external model into `Event` entities or a
user-facing error string).

Embedding conventions:
* JSON documents are modelled by the inductive type `Json`; the outcome of the
  stdlib call `json.loads` (external to the repository) is modelled as an
  `Option Json` argument (`none` = a `json.JSONDecodeError` was raised, which
  the source catches at lines 222-224 and merely prints, leaving `event_data`
  unbound).
* Python exceptions raised inside the processing `try` block are modelled by
  `PyExc`; the `except` clauses at lines 262-275 are the function
  `handleParseExc`, mapping each exception to the string the caller receives.
* The classes `Event` (a pydantic model) and `date_parser.parse_datetime` are
  repository code that is not under `src/`; they are modelled from the spec
  (sections 4.3-4.5 and 6), see the doc comments on `parse_datetime` and
  `mkEvent`.
-/

namespace Calendarize

/-- Model of a JSON value, as produced by `json.loads`. -/
inductive Json where
  | null
  | bool (b : Bool)
  | str (s : String)
  | num (n : Int)
  | arr (elems : List Json)
  | obj (fields : List (String × Json))

/-- Dictionary lookup, modelling `dict.get(key)` returning `None` when the key
is absent. -/
def pyGet : List (String × Json) → String → Option Json
  | [], _ => none
  | (k, v) :: rest, key => if k = key then some v else pyGet rest key

/-- Dictionary lookup with default, modelling `dict.get(key, default)`. -/
def pyGetD (fields : List (String × Json)) (key : String) (dflt : Json) : Json :=
  match pyGet fields key with
  | some v => v
  | none => dflt

/-- Python truthiness of a JSON value (`bool(v)`). -/
def jtruthy : Json → Bool
  | .null => false
  | .bool b => b
  | .str s => !s.isEmpty
  | .num n => n != 0
  | .arr xs => !xs.isEmpty
  | .obj fs => !fs.isEmpty

/-- Falsiness of `dict.get(key)`: `True` when the key is absent (`None`) or
the stored value is falsy; models the guard `not event.get(...)`. -/
def jfalsy : Option Json → Bool
  | none => true
  | some v => !jtruthy v

/-- A calendar date-time with minute/second granularity (the pipeline never
produces sub-second precision). -/
structure DateTime where
  year : Nat
  month : Nat
  day : Nat
  hour : Nat
  minute : Nat
  second : Nat
deriving Repr, DecidableEq

/-- Lexicographic key for comparing instants; monotone because every component
below `year` stays under 100 for all values the pipeline constructs. -/
def DateTime.key (d : DateTime) : Nat :=
  ((((d.year * 100 + d.month) * 100 + d.day) * 100 + d.hour) * 100 + d.minute) * 100
    + d.second

def isLeap (y : Nat) : Bool :=
  (y % 4 = 0 && y % 100 != 0) || y % 400 = 0

def daysInMonth (y m : Nat) : Nat :=
  if m = 2 then (if isLeap y then 29 else 28)
  else if m = 4 || m = 6 || m = 9 || m = 11 then 30
  else 31

/-- Same calendar day predicate. -/
def sameDate (a b : DateTime) : Bool :=
  a.year = b.year && a.month = b.month && a.day = b.day

/-- Move to the next calendar day, keeping the time of day. -/
def nextDay (d : DateTime) : DateTime :=
  if d.day < daysInMonth d.year d.month then { d with day := d.day + 1 }
  else if d.month < 12 then { d with month := d.month + 1, day := 1 }
  else { d with year := d.year + 1, month := 1, day := 1 }

/-- Move to the previous calendar day, keeping the time of day. -/
def prevDay (d : DateTime) : DateTime :=
  if 1 < d.day then { d with day := d.day - 1 }
  else if 1 < d.month then
    { d with month := d.month - 1, day := daysInMonth d.year (d.month - 1) }
  else { d with year := d.year - 1, month := 12, day := 31 }

/-- Advance an instant by one hour, rolling over midnight to the next day. -/
def addOneHour (d : DateTime) : DateTime :=
  if d.hour < 23 then { d with hour := d.hour + 1 }
  else nextDay { d with hour := 0 }

/-- End of day: 23:59:00 on the same calendar day. -/
def endOfDay (d : DateTime) : DateTime :=
  { d with hour := 23, minute := 59, second := 0 }

def validDate (y m d : Nat) : Bool :=
  1 ≤ y && 1 ≤ m && m ≤ 12 && 1 ≤ d && d ≤ daysInMonth y m

def validTime (h mi s : Nat) : Bool :=
  h ≤ 23 && mi ≤ 59 && s ≤ 59

/-- A resolved date-time together with the flag telling whether the source
string carried a time component (needed for the all-day inference). -/
structure ParsedDT where
  dt : DateTime
  dateOnly : Bool
deriving Repr, DecidableEq

def digitVal (c : Char) : Nat := c.toNat - 48

def num2 (a b : Char) : Nat := 10 * digitVal a + digitVal b

def num4 (a b c d : Char) : Nat := 100 * num2 a b + num2 c d

/-- Checked constructor for parse results: rejects out-of-range calendar
fields, as a real strptime-based resolver does. -/
def mkParsed (y m d h mi s : Nat) (dateOnly : Bool) : Option ParsedDT :=
  if validDate y m d && validTime h mi s then
    some ⟨⟨y, m, d, h, mi, s⟩, dateOnly⟩
  else none

/-- Modelled from the spec: `event_generation.event.date_parser.parse_datetime`
is repository code absent from `src/`. Per spec sections 2 and 6 it is a pure
function from an ISO-like date or date-time string to an instant, failing on
unparsable input; the formats in force are `YYYYMMDD` (date only, spec 8.10 and
the prompt) and `YYYYMMDDTHHMMSS` (prompt: `YYYYMMDDTHHMM00`). -/
def parse_datetime (s : String) : Option ParsedDT :=
  match s.toList with
  | [y1, y2, y3, y4, m1, m2, d1, d2] =>
    if [y1, y2, y3, y4, m1, m2, d1, d2].all Char.isDigit then
      mkParsed (num4 y1 y2 y3 y4) (num2 m1 m2) (num2 d1 d2) 0 0 0 true
    else none
  | [y1, y2, y3, y4, m1, m2, d1, d2, t, h1, h2, n1, n2, s1, s2] =>
    if t = 'T' && [y1, y2, y3, y4, m1, m2, d1, d2, h1, h2, n1, n2, s1, s2].all Char.isDigit then
      mkParsed (num4 y1 y2 y3 y4) (num2 m1 m2) (num2 d1 d2)
        (num2 h1 h2) (num2 n1 n2) (num2 s1 s2) false
    else none
  | _ => none

/-- Python exceptions that the processing `try` block (lines 190-259) can
raise; constructor choice mirrors the exception class raised by the source. -/
inductive PyExc where
  | valueError (msg : String)
  | validationError (msg : String)
  | keyError (key : String)
  | typeError (msg : String)
  | attributeError (msg : String)
  | unboundLocal (name : String)
deriving Repr, DecidableEq

/-- The message of the `ValueError` raised at line 233 of the source. -/
def missingFieldMsg : String :=
  "Missing required fields: \x27title\x27 and/or \x27start_time\x27"

/-- The generic message returned by the catch-all handler at lines 272-275. -/
def genericUnexpectedMsg : String :=
  "An unexpected error occurred. Please check the logs."

/-- The `except` clauses at lines 262-275 of the source: maps the exception
raised inside the processing block to the string returned to the caller.
`ValueError` and pydantic `ValidationError` get dedicated messages; everything
else falls into the catch-all, whose message is fixed. -/
def handleParseExc : PyExc → String
  | .valueError m => "Invalid event data: " ++ m
  | .validationError m => "Event data validation failed: " ++ m
  | _ => genericUnexpectedMsg

/-- The message built by the request-stage catch-all at line 188 of the
source: the f-string interpolating the exception text into the returned
message. -/
def requestCatchAllMessage (e : String) : String :=
  "An unexpected error occurred: " ++ e

/-- The log line written by the processing-stage catch-all at lines 273-274:
the exception text and the full stack trace. -/
def parseCatchAllLog (e trace : String) : String :=
  "Unexpected Error: " ++ e ++ " " ++ trace

/-- Pydantic coercion of a required `str` field. -/
def asString : Option Json → Except PyExc String
  | some (.str s) => .ok s
  | _ => .error (.validationError "str expected")

/-- Pydantic coercion of an `Optional[str]` field. -/
def asOptString : Json → Except PyExc (Option String)
  | .null => .ok none
  | .str s => .ok (some s)
  | _ => .error (.validationError "str or None expected")

/-- Pydantic coercion of a `bool` field. -/
def asBool : Json → Except PyExc Bool
  | .bool b => .ok b
  | _ => .error (.validationError "bool expected")

/-- Pydantic coercion of an `Optional[int]` field. -/
def asOptInt : Option Json → Except PyExc (Option Int)
  | none => .ok none
  | some .null => .ok none
  | some (.num n) => .ok (some n)
  | some _ => .error (.validationError "int or None expected")

def asStringList : List Json → Except PyExc (List String)
  | [] => .ok []
  | .str s :: rest => do
    let r ← asStringList rest
    .ok (s :: r)
  | _ :: _ => .error (.validationError "list of str expected")

/-- Pydantic coercion of an `Optional[List[str]]` field. -/
def asOptStringList : Json → Except PyExc (Option (List String))
  | .null => .ok none
  | .arr xs => do
    let r ← asStringList xs
    .ok (some r)
  | _ => .error (.validationError "list of str or None expected")

/-- The argument forms `parse_datetime(event.get(k))` can receive: absent key
or explicit null pass through as None (resolved downstream by the defaulting
rules), a string is parsed, anything else is a parse failure. -/
def parse_datetime_arg : Option Json → Except PyExc (Option ParsedDT)
  | none => .ok none
  | some .null => .ok none
  | some (.str s) =>
    match parse_datetime s with
    | some p => .ok (some p)
    | none => .error (.valueError ("Unparsable datetime: " ++ s))
  | some _ => .error (.valueError "Unparsable datetime: non-string value")

/-- The canonical recurrence patterns of spec section 4.4. -/
inductive RecPattern where
  | NONE
  | DAILY
  | WEEKLY
  | MONTHLY
  | YEARLY
deriving Repr, DecidableEq

/-- Canonical recurrence state (spec section 3). -/
structure RecurrenceDescriptor where
  pattern : RecPattern
  days : List String
  count : Option Int
  end_date : Option DateTime
deriving Repr, DecidableEq

def validDays : List String := ["MO", "TU", "WE", "TH", "FR", "SA", "SU"]

/-- Character-level uppercase, mirroring str.upper() on day codes. -/
def upperStr (s : String) : String :=
  String.mk (s.toList.map Char.toUpper)

/-- Uppercase, drop unrecognized entries, deduplicate, order Monday-first
(spec sections 3 and 4.4). -/
def normalizeDays (ds : List String) : List String :=
  validDays.filter (fun d => (ds.map upperStr).contains d)

/-- Absent or unrecognized patterns default to WEEKLY (spec section 4.4). -/
def parseRecPattern : Option String → RecPattern
  | some "DAILY" => .DAILY
  | some "WEEKLY" => .WEEKLY
  | some "MONTHLY" => .MONTHLY
  | some "YEARLY" => .YEARLY
  | _ => .WEEKLY

/-- Modelled from the spec: the RecurrenceNormalizer of section 4.4 lives in
the `Event` class (`event_generation.event.event`), repository code absent
from `src/`. Non-recurring events discard every other recurrence field; an
explicit end date is authoritative over a count. -/
def normalizeRecurrence (isRec : Bool) (pat : Option String)
    (days : Option (List String)) (count : Option Int)
    (endDate : Option DateTime) : RecurrenceDescriptor :=
  if isRec then
    let p := parseRecPattern pat
    let ds := if p = .WEEKLY then normalizeDays (days.getD []) else []
    let c := if endDate.isSome then none else count
    ⟨p, ds, c, endDate⟩
  else ⟨.NONE, [], none, none⟩

/-- The validated output entity (spec section 3). -/
structure Event where
  title : String
  is_all_day : Bool
  start_time : DateTime
  end_time : DateTime
  time_zone : String
  description : Option String
  location : Option String
  attendees : Option (List String)
  recurrence : RecurrenceDescriptor
deriving Repr, DecidableEq

/-- Keep only the date of a resolved recurrence end date (spec 4.4: time
component discarded). -/
def truncToDate (d : DateTime) : DateTime :=
  { d with hour := 0, minute := 0, second := 0 }

/-- Spec 4.3 step 5: an absent end time defaults to one hour after the start;
for a non-all-day event that would cross midnight, clamp to 23:59:00 of the
start day. -/
def defaultEnd (allDay : Bool) (start : DateTime) : DateTime :=
  let plus := addOneHour start
  if !allDay && !sameDate start plus then endOfDay start else plus

/-- Spec 4.3 step 4: an end time resolving to 00:00 intended as end of day is
replaced by 23:59:00 of the intended day (the same day when start and end
share a date, the preceding day when the end falls on a later date). -/
def clampMidnight (start e : DateTime) : DateTime :=
  if e.hour = 0 && e.minute = 0 && e.second = 0 then
    if sameDate start e then endOfDay e else endOfDay (prevDay e)
  else e

/-- Modelled from the spec: the `Event` pydantic class
(`event_generation.event.event`) is repository code absent from `src/`. Its
normalization duties per spec sections 4.3-4.5: all-day inference from a
date-only start (step 3), midnight clamp (step 4), end-time defaulting
(step 5), recurrence canonicalization (4.4). -/
def assembleEvent (title : String) (flag : Bool) (startP : ParsedDT)
    (tz : String) (endP : Option ParsedDT) (desc loc : Option String)
    (att : Option (List String)) (isRec : Bool) (pat : Option String)
    (days : Option (List String)) (count : Option Int)
    (endDate : Option DateTime) : Event :=
  let allDay := if startP.dateOnly then true else flag
  let st := startP.dt
  let en :=
    match endP with
    | some e => clampMidnight st e.dt
    | none => defaultEnd allDay st
  { title := title, is_all_day := allDay, start_time := st,
    end_time := en, time_zone := tz, description := desc,
    location := loc, attendees := att,
    recurrence := normalizeRecurrence isRec pat days count endDate }

/-- Modelled from the spec: final assembly with the end-after-start check of
the EventFactory (spec section 4.5). -/
def mkEvent (title : String) (flag : Bool) (startP : ParsedDT) (tz : String)
    (endP : Option ParsedDT) (desc loc : Option String)
    (att : Option (List String)) (isRec : Bool) (pat : Option String)
    (days : Option (List String)) (count : Option Int)
    (endDate : Option DateTime) : Except PyExc Event :=
  let ev := assembleEvent title flag startP tz endP desc loc att isRec pat
    days count endDate
  if ev.end_time.key < ev.start_time.key then
    .error (.validationError "end_time precedes start_time")
  else .ok ev

/-- A present start value resolving to no instant cannot happen behind the
required-field guard; the slot is kept for exception fidelity. -/
def requireStart : Option ParsedDT → Except PyExc ParsedDT
  | some p => .ok p
  | none => .error (.valueError "Unparsable datetime: None")

/-- Lines 240-244 of the source: the conditional expression
`str(current_time_zone) if not event.get("time_zone") else
event.get("time_zone")`. -/
def tzArg (fields : List (String × Json)) (ambientTz : String) :
    Except PyExc String :=
  if jfalsy (pyGet fields "time_zone") then .ok ambientTz
  else asString (pyGet fields "time_zone")

/-- Lines 253-257 of the source: the conditional expression
`parse_datetime(event.get("recurrence_end_date")) if
event.get("recurrence_end_date") else None`. -/
def recEndArg (fields : List (String × Json)) :
    Except PyExc (Option ParsedDT) :=
  if jfalsy (pyGet fields "recurrence_end_date") then .ok none
  else parse_datetime_arg (pyGet fields "recurrence_end_date")

/-- One iteration of the loop at lines 229-259 of the source, for a candidate
that is a JSON object: the required-field guard (lines 232-233) followed by
the `Event(...)` construction (lines 234-258), with keyword arguments
evaluated in source order. -/
def buildEvent (fields : List (String × Json)) (ambientTz : String) :
    Except PyExc Event :=
  if jfalsy (pyGet fields "title") || jfalsy (pyGet fields "start_time") then
    .error (.valueError missingFieldMsg)
  else do
    let title ← asString (pyGet fields "title")
    let flag ← asBool (pyGetD fields "is_all_day" (.bool false))
    let startO ← parse_datetime_arg (pyGet fields "start_time")
    let startP ← requireStart startO
    let tzv ← tzArg fields ambientTz
    let endP ← parse_datetime_arg (pyGet fields "end_time")
    let desc ← asOptString (pyGetD fields "description" (.str " "))
    let loc ← asOptString (pyGetD fields "location" (.str " "))
    let att ← asOptStringList (pyGetD fields "attendees" (.arr []))
    let isRec ← asBool (pyGetD fields "is_recurring" (.bool false))
    let pat ← asOptString (pyGetD fields "recurrence_pattern" .null)
    let days ← asOptStringList (pyGetD fields "recurrence_days" .null)
    let count ← asOptInt (pyGet fields "recurrence_count")
    let red ← recEndArg fields
    mkEvent title flag startP tzv endP desc loc att isRec pat days count
      (red.map fun p => truncToDate p.dt)

/-- The loop of line 229: candidates processed in document order, the first
failure aborting the whole batch; a non-object candidate fails the attribute
access `event.get`. -/
def processEvents (items : List Json) (tz : String) :
    Except PyExc (List Event) :=
  match items with
  | [] => .ok []
  | .obj fields :: rest => do
    let ev ← buildEvent fields tz
    let evs ← processEvents rest tz
    .ok (ev :: evs)
  | _ :: _ => .error (.attributeError "get")

/-- Lines 220-259 of the source, starting from the outcome of `json.loads`.
A decode failure (argument `none`) is swallowed by the `except` at lines
222-224, so the later read of `event_data` raises `UnboundLocalError`;
a non-object document fails the subscript `event_data["events"]` with
`TypeError`; an object without the key raises `KeyError`. -/
def parseStage (parsed : Option Json) (tz : String) :
    Except PyExc (List Event) :=
  match parsed with
  | none => .error (.unboundLocal "event_data")
  | some (.obj fields) =>
    match pyGet fields "events" with
    | none => .error (.keyError "events")
    | some (.arr items) => processEvents items tz
    | some _ => .error (.typeError "events value is not iterable of dicts")
  | some _ => .error (.typeError "document is not subscriptable")

/-- The whole processing stage as seen by the caller: either the ordered
event list, or the message produced by the matching `except` clause. -/
def geminiParse (parsed : Option Json) (tz : String) :
    Except String (List Event) :=
  match parseStage parsed tz with
  | .ok evs => .ok evs
  | .error e => .error (handleParseExc e)

/-- Lines 202-216 of the source: strip a leading code-fence marker and a
trailing one, trimming in both cases; an empty result is the ValueError of
lines 203 and 216. -/
def sanitizeStage (raw : String) : Except PyExc String :=
  if raw.isEmpty then
    .error (.valueError "No event data extracted from the text")
  else
    let t1 := if raw.startsWith "```json" then (raw.drop 7).trim else raw
    let t2 := if t1.endsWith "```" then (t1.dropRight 3).trim else t1
    if t2.isEmpty then
      .error (.valueError "No event data extracted from the text")
    else .ok t2

/-! Concrete candidate payloads and their expected Events, used by the
witness and counterexample theorems below. -/

def candC3 : List (String × Json) :=
  [("title", Json.str "Festival"), ("start_time", Json.str "20250315"),
   ("is_all_day", Json.bool false)]

def evC3 : Event :=
  { title := "Festival", is_all_day := true,
    start_time := ⟨2025, 3, 15, 0, 0, 0⟩,
    end_time := ⟨2025, 3, 15, 1, 0, 0⟩,
    time_zone := "UTC", description := some " ", location := some " ",
    attendees := some [],
    recurrence := ⟨RecPattern.NONE, [], none, none⟩ }

def candC10 : List (String × Json) :=
  [("title", Json.str "Trip"), ("start_time", Json.str "20250410")]

def evC10 : Event :=
  { title := "Trip", is_all_day := true,
    start_time := ⟨2025, 4, 10, 0, 0, 0⟩,
    end_time := ⟨2025, 4, 10, 1, 0, 0⟩,
    time_zone := "UTC", description := some " ", location := some " ",
    attendees := some [],
    recurrence := ⟨RecPattern.NONE, [], none, none⟩ }

def candC10w : List (String × Json) :=
  [("title", Json.str "Run"), ("start_time", Json.str "20250410T080000")]

def evC10w : Event :=
  { title := "Run", is_all_day := false,
    start_time := ⟨2025, 4, 10, 8, 0, 0⟩,
    end_time := ⟨2025, 4, 10, 9, 0, 0⟩,
    time_zone := "UTC", description := some " ", location := some " ",
    attendees := some [],
    recurrence := ⟨RecPattern.NONE, [], none, none⟩ }

def candC4 : List (String × Json) :=
  [("title", Json.str "Meeting"), ("start_time", Json.str "20250315T140000"),
   ("is_all_day", Json.bool false)]

def evC4 : Event :=
  { title := "Meeting", is_all_day := false,
    start_time := ⟨2025, 3, 15, 14, 0, 0⟩,
    end_time := ⟨2025, 3, 15, 15, 0, 0⟩,
    time_zone := "UTC", description := some " ", location := some " ",
    attendees := some [],
    recurrence := ⟨RecPattern.NONE, [], none, none⟩ }

def candC5 : List (String × Json) :=
  [("title", Json.str "Evening"), ("start_time", Json.str "20250315T200000"),
   ("end_time", Json.str "20250316T000000"), ("is_all_day", Json.bool false)]

def evC5 : Event :=
  { title := "Evening", is_all_day := false,
    start_time := ⟨2025, 3, 15, 20, 0, 0⟩,
    end_time := ⟨2025, 3, 15, 23, 59, 0⟩,
    time_zone := "UTC", description := some " ", location := some " ",
    attendees := some [],
    recurrence := ⟨RecPattern.NONE, [], none, none⟩ }

def candC6 : List (String × Json) :=
  [("title", Json.str "Call"), ("start_time", Json.str "20250315T100000")]

def evC6 : Event :=
  { title := "Call", is_all_day := false,
    start_time := ⟨2025, 3, 15, 10, 0, 0⟩,
    end_time := ⟨2025, 3, 15, 11, 0, 0⟩,
    time_zone := "America/Los_Angeles", description := some " ",
    location := some " ", attendees := some [],
    recurrence := ⟨RecPattern.NONE, [], none, none⟩ }

def candC7 : List (String × Json) :=
  [("title", Json.str "Standup"), ("start_time", Json.str "20250315T140000"),
   ("end_time", Json.str "20250315T150000"), ("is_recurring", Json.bool true),
   ("recurrence_pattern", Json.str "WEEKLY"),
   ("recurrence_days", Json.arr [Json.str "TU", Json.str "TH"]),
   ("recurrence_count", Json.num 5),
   ("recurrence_end_date", Json.str "20250601")]

def evC7 : Event :=
  { title := "Standup", is_all_day := false,
    start_time := ⟨2025, 3, 15, 14, 0, 0⟩,
    end_time := ⟨2025, 3, 15, 15, 0, 0⟩,
    time_zone := "UTC", description := some " ", location := some " ",
    attendees := some [],
    recurrence := ⟨RecPattern.WEEKLY, ["TU", "TH"], none,
      some ⟨2025, 6, 1, 0, 0, 0⟩⟩ }

def candC8 : List (String × Json) :=
  [("title", Json.str "Brunch"), ("start_time", Json.str "20250316T110000")]

def evC8 : Event :=
  { title := "Brunch", is_all_day := false,
    start_time := ⟨2025, 3, 16, 11, 0, 0⟩,
    end_time := ⟨2025, 3, 16, 12, 0, 0⟩,
    time_zone := "UTC", description := some " ", location := some " ",
    attendees := some [],
    recurrence := ⟨RecPattern.NONE, [], none, none⟩ }

def candC8w : List (String × Json) :=
  [("title", Json.str "Dinner"), ("start_time", Json.str "20250317T190000")]

def evC8w : Event :=
  { title := "Dinner", is_all_day := false,
    start_time := ⟨2025, 3, 17, 19, 0, 0⟩,
    end_time := ⟨2025, 3, 17, 20, 0, 0⟩,
    time_zone := "UTC", description := some " ", location := some " ",
    attendees := some [],
    recurrence := ⟨RecPattern.NONE, [], none, none⟩ }

def candC2good : List (String × Json) :=
  [("title", Json.str "Lunch"), ("start_time", Json.str "20250318T120000")]

def evC2good : Event :=
  { title := "Lunch", is_all_day := false,
    start_time := ⟨2025, 3, 18, 12, 0, 0⟩,
    end_time := ⟨2025, 3, 18, 13, 0, 0⟩,
    time_zone := "UTC", description := some " ", location := some " ",
    attendees := some [],
    recurrence := ⟨RecPattern.NONE, [], none, none⟩ }

def candC2bad : List (String × Json) :=
  [("title", Json.str "Gym")]

/-! Helper lemmas. -/

theorem except_bind_ok {ε α β : Type} {x : Except ε α} {f : α → Except ε β}
    {b : β} :
    x >>= f = Except.ok b ↔ ∃ a, x = Except.ok a ∧ f a = Except.ok b := by
  cases x with
  | error e => simp [Bind.bind, Except.bind]
  | ok a => simp [Bind.bind, Except.bind]

theorem mkParsed_bounds {y m d h mi s : Nat} {b : Bool} {p : ParsedDT}
    (hp : mkParsed y m d h mi s b = some p) :
    p.dt.hour ≤ 23 ∧ p.dt.minute ≤ 59 ∧ p.dt.second ≤ 59 := by
  unfold mkParsed at hp
  split at hp
  case isTrue hv =>
    injection hp with hp
    subst hp
    simp only [validDate, validTime, Bool.and_eq_true, decide_eq_true_eq] at hv
    have hb : h ≤ 23 ∧ mi ≤ 59 ∧ s ≤ 59 := by omega
    exact hb
  case isFalse => cases hp

theorem parse_datetime_bounds {s : String} {p : ParsedDT}
    (hp : parse_datetime s = some p) :
    p.dt.hour ≤ 23 ∧ p.dt.minute ≤ 59 ∧ p.dt.second ≤ 59 := by
  unfold parse_datetime at hp
  split at hp
  · split at hp
    · exact mkParsed_bounds hp
    · cases hp
  · split at hp
    · exact mkParsed_bounds hp
    · cases hp
  · cases hp

theorem parse_datetime_arg_ok_some {x : Option Json} {p : ParsedDT}
    (h : parse_datetime_arg x = Except.ok (some p)) :
    ∃ s, x = some (Json.str s) ∧ parse_datetime s = some p := by
  cases x with
  | none => exact absurd h (by simp [parse_datetime_arg])
  | some j =>
    cases j with
    | str s =>
      refine ⟨s, rfl, ?_⟩
      simp only [parse_datetime_arg] at h
      split at h
      next q hq =>
        injection h with h
        injection h with h
        rw [hq, h]
      next => cases h
    | null => exact absurd h (by simp [parse_datetime_arg])
    | bool b => exact absurd h (by simp [parse_datetime_arg])
    | num n => exact absurd h (by simp [parse_datetime_arg])
    | arr xs => exact absurd h (by simp [parse_datetime_arg])
    | obj fs => exact absurd h (by simp [parse_datetime_arg])

theorem asString_ok_inv {x : Option Json} {s : String}
    (h : asString x = Except.ok s) : x = some (Json.str s) := by
  cases x with
  | none => exact absurd h (by simp [asString])
  | some j =>
    cases j with
    | str t =>
      simp only [asString] at h
      injection h with h
      rw [h]
    | null => exact absurd h (by simp [asString])
    | bool b => exact absurd h (by simp [asString])
    | num n => exact absurd h (by simp [asString])
    | arr xs => exact absurd h (by simp [asString])
    | obj fs => exact absurd h (by simp [asString])

theorem mkEvent_ok_inv {title : String} {flag : Bool} {startP : ParsedDT}
    {tz : String} {endP : Option ParsedDT} {desc loc : Option String}
    {att : Option (List String)} {isRec : Bool} {pat : Option String}
    {days : Option (List String)} {count : Option Int}
    {endDate : Option DateTime} {ev : Event}
    (h : mkEvent title flag startP tz endP desc loc att isRec pat days count
      endDate = Except.ok ev) :
    ev = assembleEvent title flag startP tz endP desc loc att isRec pat days
      count endDate := by
  simp only [mkEvent] at h
  split at h
  · cases h
  · injection h with h
    exact h.symm

theorem buildEvent_ok_inv {fields : List (String × Json)} {tz : String}
    {ev : Event} (h : buildEvent fields tz = Except.ok ev) :
    jfalsy (pyGet fields "title") = false ∧
    jfalsy (pyGet fields "start_time") = false ∧
    ∃ title flag startP tzv endP desc loc att isRec pat days count red,
      asString (pyGet fields "title") = Except.ok title ∧
      asBool (pyGetD fields "is_all_day" (Json.bool false)) = Except.ok flag ∧
      parse_datetime_arg (pyGet fields "start_time") = Except.ok (some startP) ∧
      tzArg fields tz = Except.ok tzv ∧
      parse_datetime_arg (pyGet fields "end_time") = Except.ok endP ∧
      asOptString (pyGetD fields "description" (Json.str " ")) = Except.ok desc ∧
      asOptString (pyGetD fields "location" (Json.str " ")) = Except.ok loc ∧
      asOptStringList (pyGetD fields "attendees" (Json.arr [])) = Except.ok att ∧
      asBool (pyGetD fields "is_recurring" (Json.bool false)) = Except.ok isRec ∧
      asOptString (pyGetD fields "recurrence_pattern" Json.null) = Except.ok pat ∧
      asOptStringList (pyGetD fields "recurrence_days" Json.null) = Except.ok days ∧
      asOptInt (pyGet fields "recurrence_count") = Except.ok count ∧
      recEndArg fields = Except.ok red ∧
      mkEvent title flag startP tzv endP desc loc att isRec pat days count
        (red.map fun p => truncToDate p.dt) = Except.ok ev := by
  unfold buildEvent at h
  split at h
  next hg => cases h
  next hg =>
    rw [Bool.or_eq_true, not_or] at hg
    obtain ⟨hg1, hg2⟩ := hg
    refine ⟨Bool.not_eq_true _ ▸ Bool.of_not_eq_true hg1,
            Bool.not_eq_true _ ▸ Bool.of_not_eq_true hg2, ?_⟩
    simp only [except_bind_ok] at h
    obtain ⟨title, h1, flag, h2, startO, h3, startP, h4, tzv, h5, endP, h6,
      desc, h7, loc, h8, att, h9, isRec, h10, pat, h11, days, h12,
      count, h13, red, h14, hmk⟩ := h
    cases startO with
    | none => cases h4
    | some p =>
      injection h4 with h4
      subst h4
      exact ⟨title, flag, p, tzv, endP, desc, loc, att, isRec, pat, days,
        count, red, h1, h2, h3, h5, h6, h7, h8, h9, h10, h11, h12, h13, h14, hmk⟩

theorem buildEvent_missing {fields : List (String × Json)} {tz : String}
    (hg : (jfalsy (pyGet fields "title")
        || jfalsy (pyGet fields "start_time")) = true) :
    buildEvent fields tz = Except.error (PyExc.valueError missingFieldMsg) := by
  unfold buildEvent
  rw [if_pos hg]

theorem processEvents_ok_mem {items : List Json} {tz : String}
    {evs : List Event} (h : processEvents items tz = Except.ok evs) :
    ∀ j ∈ items, ∃ fields ev,
      j = Json.obj fields ∧ buildEvent fields tz = Except.ok ev := by
  induction items generalizing evs with
  | nil => simp
  | cons head rest ih =>
    intro j hj
    cases head with
    | obj fields =>
      simp only [processEvents, except_bind_ok] at h
      obtain ⟨ev, hev, evs2, hrest, _⟩ := h
      rcases List.mem_cons.mp hj with rfl | hj2
      · exact ⟨fields, ev, rfl, hev⟩
      · exact ih hrest j hj2
    | null => simp [processEvents] at h
    | bool b => simp [processEvents] at h
    | str s => simp [processEvents] at h
    | num n => simp [processEvents] at h
    | arr xs => simp [processEvents] at h

theorem processEvents_ok_out {items : List Json} {tz : String}
    {evs : List Event} (h : processEvents items tz = Except.ok evs) :
    ∀ ev ∈ evs, ∃ fields, buildEvent fields tz = Except.ok ev := by
  induction items generalizing evs with
  | nil =>
    simp only [processEvents] at h
    injection h with h
    subst h
    simp
  | cons head rest ih =>
    cases head with
    | obj fields =>
      simp only [processEvents, except_bind_ok] at h
      obtain ⟨ev0, hev0, evs2, hrest, hcons⟩ := h
      injection hcons with hcons
      subst hcons
      intro ev hev
      rcases List.mem_cons.mp hev with rfl | h2
      · exact ⟨fields, hev0⟩
      · exact ih hrest ev h2
    | null => simp [processEvents] at h
    | bool b => simp [processEvents] at h
    | str s => simp [processEvents] at h
    | num n => simp [processEvents] at h
    | arr xs => simp [processEvents] at h

theorem processEvents_append {xs ys : List Json} {tz : String} :
    processEvents (xs ++ ys) tz =
      processEvents xs tz >>= fun evs1 =>
        processEvents ys tz >>= fun evs2 => Except.ok (evs1 ++ evs2) := by
  induction xs with
  | nil =>
    cases hy : processEvents ys tz <;>
      simp [processEvents, hy, Bind.bind, Except.bind]
  | cons head rest ih =>
    cases head with
    | obj fields =>
      cases hb : buildEvent fields tz with
      | error e => simp [processEvents, hb, Bind.bind, Except.bind]
      | ok ev =>
        cases hx : processEvents rest tz with
        | error e =>
          rw [List.cons_append]
          simp only [processEvents, ih, hx, hb, Bind.bind, Except.bind]
        | ok evs1 =>
          cases hy : processEvents ys tz with
          | error e =>
            rw [List.cons_append]
            simp only [processEvents, ih, hx, hy, hb, Bind.bind, Except.bind]
          | ok evs2 =>
            rw [List.cons_append]
            simp [processEvents, ih, hx, hy, hb, Bind.bind, Except.bind]
    | null => simp [processEvents, Bind.bind, Except.bind]
    | bool b => simp [processEvents, Bind.bind, Except.bind]
    | str s => simp [processEvents, Bind.bind, Except.bind]
    | num n => simp [processEvents, Bind.bind, Except.bind]
    | arr zs => simp [processEvents, Bind.bind, Except.bind]

theorem geminiParse_ok_inv {parsed : Option Json} {tz : String}
    {evs : List Event} (h : geminiParse parsed tz = Except.ok evs) :
    ∃ fields items, parsed = some (Json.obj fields) ∧
      pyGet fields "events" = some (Json.arr items) ∧
      processEvents items tz = Except.ok evs := by
  unfold geminiParse at h
  cases hps : parseStage parsed tz with
  | error e => rw [hps] at h; cases h
  | ok evs2 =>
    rw [hps] at h
    injection h with h
    subst h
    cases parsed with
    | none => simp [parseStage] at hps
    | some j =>
      cases j with
      | obj fields =>
        refine ⟨fields, ?_⟩
        simp only [parseStage] at hps
        cases hev : pyGet fields "events" with
        | none => rw [hev] at hps; cases hps
        | some v =>
          rw [hev] at hps
          cases v with
          | arr items => exact ⟨items, rfl, rfl, hps⟩
          | null => cases hps
          | bool b => cases hps
          | str s => cases hps
          | num n => cases hps
          | obj fs => cases hps
      | null => simp [parseStage] at hps
      | bool b => simp [parseStage] at hps
      | str s => simp [parseStage] at hps
      | num n => simp [parseStage] at hps
      | arr xs => simp [parseStage] at hps

theorem nextDay_hour (d : DateTime) : (nextDay d).hour = d.hour := by
  unfold nextDay
  split
  · rfl
  · split <;> rfl

theorem addOneHour_hour_le {d : DateTime} (hd : d.hour ≤ 23) :
    (addOneHour d).hour ≤ 23 := by
  unfold addOneHour
  split
  next h =>
    show d.hour + 1 ≤ 23
    omega
  next h =>
    rw [nextDay_hour]
    show (0 : Nat) ≤ 23
    omega

theorem defaultEnd_hour_le {allDay : Bool} {st : DateTime}
    (hst : st.hour ≤ 23) : (defaultEnd allDay st).hour ≤ 23 := by
  simp only [defaultEnd]
  split
  · show (23 : Nat) ≤ 23
    omega
  · exact addOneHour_hour_le hst

theorem clampMidnight_hour_le {st e : DateTime} (he : e.hour ≤ 23) :
    (clampMidnight st e).hour ≤ 23 := by
  unfold clampMidnight
  split
  · split <;> · show (23 : Nat) ≤ 23; omega
  · exact he

theorem buildEvent_ok_hours {fields : List (String × Json)} {tz : String}
    {ev : Event} (h : buildEvent fields tz = Except.ok ev) :
    ev.start_time.hour ≤ 23 ∧ ev.end_time.hour ≤ 23 := by
  obtain ⟨-, -, title, flag, startP, tzv, endP, desc, loc, att, isRec, pat,
    days, count, red, -, -, h3, -, h6, -, -, -, -, -, -, -, -, hmk⟩ :=
    buildEvent_ok_inv h
  have hev := mkEvent_ok_inv hmk
  subst hev
  obtain ⟨s, -, hs⟩ := parse_datetime_arg_ok_some h3
  have hstb := (parse_datetime_bounds hs).1
  refine ⟨hstb, ?_⟩
  show (match endP with
    | some e => clampMidnight startP.dt e.dt
    | none => defaultEnd (if startP.dateOnly then true else flag)
        startP.dt).hour ≤ 23
  cases endP with
  | none => exact defaultEnd_hour_le hstb
  | some e =>
    obtain ⟨s2, -, hs2⟩ := parse_datetime_arg_ok_some h6
    exact clampMidnight_hour_le (parse_datetime_bounds hs2).1

theorem sameDate_set_hour (d : DateTime) (h : Nat) :
    sameDate d { d with hour := h } = true := by
  simp [sameDate]

theorem sameDate_nextDay_zero (d : DateTime) :
    sameDate d (nextDay { d with hour := 0 }) = false := by
  unfold nextDay
  split
  next =>
    simp only [sameDate]
    simp
  next =>
    split
    next =>
      simp only [sameDate]
      simp
    next =>
      simp only [sameDate]
      simp

/-! Claim theorems. -/

/-- C3: for every candidate event whose start_time is date-only (no time
component), the resulting Event has is_all_day = true, regardless of the
upstream is_all_day flag, including an upstream is_all_day: false.
(The all-day inference is the spec-modelled step 3 of section 4.3, performed
by the Event class, which is absent from src/; the flag default at line 236 of
gemini_parser.py is the visible part.) -/
theorem C3_dateonly_allday :
    ∀ (fields : List (String × Json)) (tz : String) (ev : Event) (s : String)
      (p : ParsedDT),
      pyGet fields "start_time" = some (Json.str s) →
      parse_datetime s = some p →
      p.dateOnly = true →
      buildEvent fields tz = Except.ok ev →
      ev.is_all_day = true := by
  intro fields tz ev s p hst hp hdo hb
  obtain ⟨-, -, title, flag, startP, tzv, endP, desc, loc, att, isRec, pat,
    days, count, red, -, -, h3, -, -, -, -, -, -, -, -, -, -, hmk⟩ :=
    buildEvent_ok_inv hb
  rw [hst] at h3
  simp only [parse_datetime_arg, hp, Except.ok.injEq, Option.some.injEq] at h3
  subst h3
  have hev := mkEvent_ok_inv hmk
  subst hev
  show (if p.dateOnly then true else flag) = true
  rw [hdo]
  rfl

/-- Witness for C3: a concrete candidate with a date-only start and an
upstream is_all_day: false still produces an all-day Event. -/
theorem C3_dateonly_allday_witness :
    buildEvent candC3 "UTC" = Except.ok evC3 ∧ evC3.is_all_day = true := by
  have hb : buildEvent candC3 "UTC" = Except.ok evC3 := rfl
  exact ⟨hb, C3_dateonly_allday candC3 "UTC" evC3 "20250315"
    ⟨⟨2025, 3, 15, 0, 0, 0⟩, true⟩ rfl rfl rfl hb⟩

/-- C10 counterexample: a candidate with the is_all_day field absent does not
always produce is_all_day = false: with a date-only start_time, the all-day
inference (spec 4.3 step 3, modelled in the Event class) overrides the
defaulted flag to true. -/
theorem C10_counterexample :
    pyGet candC10 "is_all_day" = none ∧
    buildEvent candC10 "UTC" = Except.ok evC10 ∧
    evC10.is_all_day = true :=
  ⟨rfl, rfl, rfl⟩

/-- C10 amended: for every candidate event with the is_all_day field absent,
the flag defaults to false (line 236: `event.get("is_all_day", False)`); the
constructed Event has is_all_day = false whenever the start_time carries a
time component, while a date-only start_time overrides it to true. -/
theorem C10_absent_flag_false :
    ∀ (fields : List (String × Json)) (tz : String) (ev : Event) (s : String)
      (p : ParsedDT),
      pyGet fields "is_all_day" = none →
      pyGet fields "start_time" = some (Json.str s) →
      parse_datetime s = some p →
      p.dateOnly = false →
      buildEvent fields tz = Except.ok ev →
      ev.is_all_day = false := by
  intro fields tz ev s p hflag hst hp hdo hb
  obtain ⟨-, -, title, flag, startP, tzv, endP, desc, loc, att, isRec, pat,
    days, count, red, -, h2, h3, -, -, -, -, -, -, -, -, -, -, hmk⟩ :=
    buildEvent_ok_inv hb
  rw [hst] at h3
  simp only [parse_datetime_arg, hp, Except.ok.injEq, Option.some.injEq] at h3
  subst h3
  simp only [pyGetD, hflag, asBool, Except.ok.injEq] at h2
  subst h2
  have hev := mkEvent_ok_inv hmk
  subst hev
  show (if p.dateOnly then true else false) = false
  rw [hdo]
  rfl

/-- Witness for the amended C10: absent is_all_day with a timed start gives a
non-all-day Event. -/
theorem C10_absent_flag_false_witness :
    buildEvent candC10w "UTC" = Except.ok evC10w ∧
    evC10w.is_all_day = false := by
  have hb : buildEvent candC10w "UTC" = Except.ok evC10w := rfl
  exact ⟨hb, C10_absent_flag_false candC10w "UTC" evC10w "20250410T080000"
    ⟨⟨2025, 4, 10, 8, 0, 0⟩, false⟩ rfl rfl rfl rfl hb⟩

theorem addOneHour_lt {d : DateTime} (h : d.hour < 23) :
    addOneHour d = { d with hour := d.hour + 1 } := by
  simp [addOneHour, h]

theorem addOneHour_ge {d : DateTime} (h : ¬ d.hour < 23) :
    addOneHour d = nextDay { d with hour := 0 } := by
  simp [addOneHour, h]

theorem defaultEnd_false_lt {st : DateTime} (hlt : st.hour < 23) :
    defaultEnd false st = { st with hour := st.hour + 1 } := by
  simp only [defaultEnd, addOneHour_lt hlt, sameDate_set_hour]
  simp

theorem defaultEnd_false_23 {st : DateTime} (h23 : st.hour = 23) :
    defaultEnd false st = endOfDay st := by
  have hge : ¬ st.hour < 23 := by omega
  simp only [defaultEnd, addOneHour_ge hge, sameDate_nextDay_zero]
  simp

theorem defaultEnd_true (st : DateTime) :
    defaultEnd true st = addOneHour st := by
  simp [defaultEnd]

/-- C4: for every candidate event with end_time absent, the Event end time is
start_time plus one hour; for a non-all-day event whose start lies in hour 23
(so that adding the hour would cross midnight) it is clamped to 23:59:00 of
the start day instead. (End-time defaulting is the spec-modelled step 5 of
section 4.3; the Event class performing it is absent from src/.) -/
theorem C4_end_default :
    ∀ (fields : List (String × Json)) (tz : String) (ev : Event),
      pyGet fields "end_time" = none →
      buildEvent fields tz = Except.ok ev →
      (ev.is_all_day = false →
        (ev.start_time.hour < 23 →
          ev.end_time = { ev.start_time with hour := ev.start_time.hour + 1 }) ∧
        (ev.start_time.hour = 23 → ev.end_time = endOfDay ev.start_time)) ∧
      (ev.is_all_day = true → ev.end_time = addOneHour ev.start_time) := by
  intro fields tz ev hend hb
  obtain ⟨-, -, title, flag, startP, tzv, endP, desc, loc, att, isRec, pat,
    days, count, red, -, -, -, -, h6, -, -, -, -, -, -, -, -, hmk⟩ :=
    buildEvent_ok_inv hb
  rw [hend] at h6
  simp only [parse_datetime_arg, Except.ok.injEq] at h6
  subst h6
  have hev := mkEvent_ok_inv hmk
  subst hev
  simp only [assembleEvent]
  constructor
  · intro hAD
    rw [hAD]
    constructor
    · intro hlt
      rw [defaultEnd_false_lt hlt]
    · intro h23
      rw [defaultEnd_false_23 h23]
  · intro hAD
    rw [hAD, defaultEnd_true]

/-- Witness for C4: a 14:00 start with no end time resolves to a 15:00 end. -/
theorem C4_end_default_witness :
    buildEvent candC4 "UTC" = Except.ok evC4 ∧
    evC4.end_time = ⟨2025, 3, 15, 15, 0, 0⟩ := by
  have hb : buildEvent candC4 "UTC" = Except.ok evC4 := rfl
  have h := ((C4_end_default candC4 "UTC" evC4 rfl hb).1 rfl).1 (by decide)
  exact ⟨hb, h⟩

/-- C5: for every candidate event whose end time resolves to 00:00 (the
rendering of a literal 24:00, intended as end of day), the normalized end
time is 23:59:00 of the intended day: the end day itself when start and end
share a date, the preceding day otherwise; moreover no Event returned by the
pipeline ever carries an hour outside 0..23 in start or end (24:00 never
appears). (Midnight clamping is the spec-modelled step 4 of section 4.3.) -/
theorem C5_midnight_clamp :
    (∀ (fields : List (String × Json)) (tz : String) (ev : Event) (s : String)
      (p : ParsedDT),
      pyGet fields "end_time" = some (Json.str s) →
      parse_datetime s = some p →
      p.dt.hour = 0 → p.dt.minute = 0 → p.dt.second = 0 →
      buildEvent fields tz = Except.ok ev →
      ev.end_time = (if sameDate ev.start_time p.dt then endOfDay p.dt
        else endOfDay (prevDay p.dt))) ∧
    (∀ (parsed : Option Json) (tz : String) (evs : List Event),
      geminiParse parsed tz = Except.ok evs →
      ∀ ev ∈ evs, ev.start_time.hour ≤ 23 ∧ ev.end_time.hour ≤ 23) := by
  constructor
  · intro fields tz ev s p hend hp h0 h1 h2 hb
    obtain ⟨-, -, title, flag, startP, tzv, endP, desc, loc, att, isRec, pat,
      days, count, red, -, -, -, -, h6, -, -, -, -, -, -, -, -, hmk⟩ :=
      buildEvent_ok_inv hb
    rw [hend] at h6
    simp only [parse_datetime_arg, hp, Except.ok.injEq] at h6
    subst h6
    have hev := mkEvent_ok_inv hmk
    subst hev
    simp only [assembleEvent]
    simp [clampMidnight, h0, h1, h2]
  · intro parsed tz evs hg ev hev
    obtain ⟨fields, items, -, -, hpe⟩ := geminiParse_ok_inv hg
    obtain ⟨f2, hbe⟩ := processEvents_ok_out hpe ev hev
    exact buildEvent_ok_hours hbe

/-- Witness for C5: an end of next-day 00:00 (the model rendering of 24:00)
is normalized to 23:59:00 of the start day. -/
theorem C5_midnight_clamp_witness :
    buildEvent candC5 "UTC" = Except.ok evC5 ∧
    evC5.end_time = ⟨2025, 3, 15, 23, 59, 0⟩ := by
  have hb : buildEvent candC5 "UTC" = Except.ok evC5 := rfl
  have h := C5_midnight_clamp.1 candC5 "UTC" evC5 "20250316T000000"
    ⟨⟨2025, 3, 16, 0, 0, 0⟩, false⟩ rfl rfl rfl rfl rfl hb
  rw [h]
  exact ⟨hb, rfl⟩

/-- C6: for every candidate event with time_zone absent or falsy (empty
string or null), the Event time zone is the ambient timezone supplied by the
caller (lines 240-244 of the source); and, provided the caller supplies a
non-empty ambient timezone, every resulting Event carries a non-empty
timezone. -/
theorem C6_tz_default :
    ∀ (fields : List (String × Json)) (tz : String) (ev : Event),
      tz ≠ "" →
      buildEvent fields tz = Except.ok ev →
      (jfalsy (pyGet fields "time_zone") = true → ev.time_zone = tz) ∧
      ev.time_zone ≠ "" := by
  intro fields tz ev htz hb
  obtain ⟨-, -, title, flag, startP, tzv, endP, desc, loc, att, isRec, pat,
    days, count, red, -, -, -, h5, -, -, -, -, -, -, -, -, -, hmk⟩ :=
    buildEvent_ok_inv hb
  have hev := mkEvent_ok_inv hmk
  subst hev
  have htzv : (assembleEvent title flag startP tzv endP desc loc att isRec pat
      days count (red.map fun p => truncToDate p.dt)).time_zone = tzv := rfl
  rw [htzv]
  by_cases hf : jfalsy (pyGet fields "time_zone") = true
  · rw [tzArg, if_pos hf] at h5
    injection h5 with h5
    subst h5
    exact ⟨fun _ => rfl, htz⟩
  · rw [tzArg, if_neg hf] at h5
    have hx := asString_ok_inv h5
    refine ⟨fun hcon => absurd hcon hf, ?_⟩
    have hfal : jfalsy (pyGet fields "time_zone") = false :=
      Bool.not_eq_true _ ▸ Bool.of_not_eq_true hf
    rw [hx] at hfal
    simp only [jfalsy, jtruthy, Bool.not_not] at hfal
    intro hcon
    rw [hcon] at hfal
    exact absurd hfal (by decide)

/-- Witness for C6: a candidate without a time_zone field inherits the
ambient timezone of the request. -/
theorem C6_tz_default_witness :
    buildEvent candC6 "America/Los_Angeles" = Except.ok evC6 ∧
    evC6.time_zone = "America/Los_Angeles" ∧ evC6.time_zone ≠ "" := by
  have hb : buildEvent candC6 "America/Los_Angeles" = Except.ok evC6 := rfl
  have h := C6_tz_default candC6 "America/Los_Angeles" evC6
    (by decide) hb
  exact ⟨hb, h.1 rfl, h.2⟩

/-- C7: for every recurring candidate event carrying both a recurrence count
and a recurrence end date, the canonical recurrence descriptor retains the
end date and drops the count (the spec-modelled tie-break of section 4.4; the
visible code at lines 252-257 passes both fields through). -/
theorem C7_recurrence_tiebreak :
    ∀ (fields : List (String × Json)) (tz : String) (ev : Event) (n : Int)
      (s : String) (p : ParsedDT),
      pyGet fields "is_recurring" = some (Json.bool true) →
      pyGet fields "recurrence_count" = some (Json.num n) →
      pyGet fields "recurrence_end_date" = some (Json.str s) →
      jfalsy (pyGet fields "recurrence_end_date") = false →
      parse_datetime s = some p →
      buildEvent fields tz = Except.ok ev →
      ev.recurrence.count = none ∧
      ev.recurrence.end_date = some (truncToDate p.dt) := by
  intro fields tz ev n s p hrec hcount hend hfal hp hb
  obtain ⟨-, -, title, flag, startP, tzv, endP, desc, loc, att, isRec, pat,
    days, count, red, -, -, -, -, -, -, -, -, h10, -, -, h13, h14, hmk⟩ :=
    buildEvent_ok_inv hb
  simp only [pyGetD, hrec, asBool, Except.ok.injEq] at h10
  subst h10
  simp only [hcount, asOptInt, Except.ok.injEq] at h13
  subst h13
  rw [recEndArg, if_neg (by simp [hfal])] at h14
  rw [hend] at h14
  simp only [parse_datetime_arg, hp, Except.ok.injEq] at h14
  subst h14
  have hev := mkEvent_ok_inv hmk
  subst hev
  constructor
  · show (normalizeRecurrence true pat days (some n)
      ((some p).map fun q => truncToDate q.dt)).count = none
    simp [normalizeRecurrence]
  · show (normalizeRecurrence true pat days (some n)
      ((some p).map fun q => truncToDate q.dt)).end_date
        = some (truncToDate p.dt)
    simp [normalizeRecurrence]

/-- Witness for C7: a recurring candidate with count 5 and end date 20250601
keeps the end date and drops the count. -/
theorem C7_recurrence_tiebreak_witness :
    buildEvent candC7 "UTC" = Except.ok evC7 ∧
    evC7.recurrence.count = none ∧
    evC7.recurrence.end_date = some ⟨2025, 6, 1, 0, 0, 0⟩ := by
  have hb : buildEvent candC7 "UTC" = Except.ok evC7 := rfl
  have h := C7_recurrence_tiebreak candC7 "UTC" evC7 5 "20250601"
    ⟨⟨2025, 6, 1, 0, 0, 0⟩, true⟩ rfl rfl rfl rfl rfl hb
  exact ⟨hb, h.1, h.2⟩

/-- C8 counterexample: with description and location absent, the resulting
Event carries the single-space placeholder " ", not the empty string "" the
claim states (lines 246-247 of the source default to a space). -/
theorem C8_counterexample :
    pyGet candC8 "description" = none ∧
    buildEvent candC8 "UTC" = Except.ok evC8 ∧
    evC8.description = some " " ∧ evC8.description ≠ some "" ∧
    evC8.location = some " " ∧ evC8.location ≠ some "" :=
  ⟨rfl, rfl, rfl, by decide, rfl, by decide⟩

/-- C8 amended: for every candidate event, description and location default
to the single-space placeholder string " " when the field is absent (never
left unset), and attendees defaults to the empty sequence when absent. -/
theorem C8_placeholder_defaults :
    ∀ (fields : List (String × Json)) (tz : String) (ev : Event),
      buildEvent fields tz = Except.ok ev →
      (pyGet fields "description" = none → ev.description = some " ") ∧
      (pyGet fields "location" = none → ev.location = some " ") ∧
      (pyGet fields "attendees" = none → ev.attendees = some []) := by
  intro fields tz ev hb
  obtain ⟨-, -, title, flag, startP, tzv, endP, desc, loc, att, isRec, pat,
    days, count, red, -, -, -, -, -, h7, h8, h9, -, -, -, -, -, hmk⟩ :=
    buildEvent_ok_inv hb
  have hev := mkEvent_ok_inv hmk
  subst hev
  refine ⟨?_, ?_, ?_⟩
  · intro hd
    simp only [pyGetD, hd, asOptString, Except.ok.injEq] at h7
    exact h7.symm
  · intro hl
    simp only [pyGetD, hl, asOptString, Except.ok.injEq] at h8
    exact h8.symm
  · intro ha
    simp only [pyGetD, ha, asOptStringList, asStringList, except_bind_ok,
      Except.ok.injEq] at h9
    obtain ⟨xs, hxs, h9⟩ := h9
    subst hxs
    exact h9.symm

/-- Witness for the amended C8: with description, location and attendees all
absent, the Event carries " ", " " and the empty list. -/
theorem C8_placeholder_defaults_witness :
    buildEvent candC8w "UTC" = Except.ok evC8w ∧
    evC8w.description = some " " ∧ evC8w.location = some " " ∧
    evC8w.attendees = some [] := by
  have hb : buildEvent candC8w "UTC" = Except.ok evC8w := rfl
  have h := C8_placeholder_defaults candC8w "UTC" evC8w hb
  exact ⟨hb, h.1 rfl, h.2.1 rfl, h.2.2 rfl⟩

/-- C1 counterexample: on a payload that is not valid JSON (modelled by the
`json.loads` outcome `none`; the decode error is swallowed at lines 222-224)
and on a parsed document lacking the top-level events key, the caller
receives exactly the generic catch-all message of the UnexpectedError path,
not a distinct malformed-payload error carrying the offending text, as the
claim states. -/
theorem C1_counterexample :
    geminiParse none "America/Los_Angeles"
      = Except.error genericUnexpectedMsg ∧
    geminiParse (some (Json.obj [("data", Json.arr [])]))
      "America/Los_Angeles" = Except.error genericUnexpectedMsg :=
  ⟨rfl, rfl⟩

/-- C1 amended: for every sanitized payload that is not valid JSON, or that
parses but lacks the top-level events key, the extraction fails fatally and
yields no Events, but the failure surfaced to the caller is the generic
unexpected-error message (lines 272-275), not a classified malformed-payload
error. -/
theorem C1_generic_failure :
    ∀ (tz : String),
      geminiParse none tz = Except.error genericUnexpectedMsg ∧
      ∀ (fields : List (String × Json)), pyGet fields "events" = none →
        geminiParse (some (Json.obj fields)) tz
          = Except.error genericUnexpectedMsg := by
  intro tz
  constructor
  · rfl
  · intro fields hev
    simp [geminiParse, parseStage, hev, handleParseExc]

/-- Witness for the amended C1 at concrete inputs. -/
theorem C1_generic_failure_witness :
    geminiParse none "UTC" = Except.error genericUnexpectedMsg ∧
    geminiParse (some (Json.obj [("foo", Json.null)])) "UTC"
      = Except.error genericUnexpectedMsg :=
  ⟨(C1_generic_failure "UTC").1,
   (C1_generic_failure "UTC").2 [("foo", Json.null)] rfl⟩

/-- C2: for every candidate event whose title or start_time is absent or
falsy (lines 232-233 of the source), the pipeline fails with the
missing-required-field error (the realization of MissingRequiredFieldError:
the ValueError of line 233 surfaced as the line 265 message) and no Events
are returned from that batch: a successful batch contains no such candidate,
and when the failing candidate is reached the whole run returns exactly that
error. -/
theorem C2_missing_required :
    (∀ (items : List Json) (tz : String) (evs : List Event)
        (fields : List (String × Json)),
      processEvents items tz = Except.ok evs →
      Json.obj fields ∈ items →
      jfalsy (pyGet fields "title") = false ∧
      jfalsy (pyGet fields "start_time") = false) ∧
    (∀ (pre : List Json) (fields : List (String × Json)) (rest : List Json)
        (tz : String) (evs0 : List Event),
      processEvents pre tz = Except.ok evs0 →
      (jfalsy (pyGet fields "title")
        || jfalsy (pyGet fields "start_time")) = true →
      geminiParse (some (Json.obj
          [("events", Json.arr (pre ++ Json.obj fields :: rest))])) tz
        = Except.error ("Invalid event data: " ++ missingFieldMsg)) := by
  constructor
  · intro items tz evs fields h hmem
    obtain ⟨f2, ev, hobj, hbe⟩ := processEvents_ok_mem h _ hmem
    injection hobj with hf
    subst hf
    have hinv := buildEvent_ok_inv hbe
    exact ⟨hinv.1, hinv.2.1⟩
  · intro pre fields rest tz evs0 hpre hg
    have hbad : processEvents (Json.obj fields :: rest) tz
        = Except.error (PyExc.valueError missingFieldMsg) := by
      simp [processEvents, buildEvent_missing hg, Bind.bind, Except.bind]
    have hall : processEvents (pre ++ Json.obj fields :: rest) tz
        = Except.error (PyExc.valueError missingFieldMsg) := by
      rw [processEvents_append, hpre, hbad]
      rfl
    have hpg : pyGet [("events", Json.arr (pre ++ Json.obj fields :: rest))]
        "events" = some (Json.arr (pre ++ Json.obj fields :: rest)) := rfl
    simp [geminiParse, parseStage, hpg, hall, handleParseExc]

/-- Witness for C2: a two-candidate batch whose second candidate lacks
start_time fails whole with the missing-required-field message. -/
theorem C2_missing_required_witness :
    geminiParse (some (Json.obj [("events",
        Json.arr [Json.obj candC2good, Json.obj candC2bad])])) "UTC"
      = Except.error ("Invalid event data: " ++ missingFieldMsg) :=
  C2_missing_required.2 [Json.obj candC2good] candC2bad [] "UTC"
    [evC2good] rfl rfl

/-- C9 counterexample: the request-stage catch-all (lines 186-188) embeds
the exception text in the message returned to the caller, so that message is
neither generic nor free of internal details. -/
theorem C9_counterexample :
    requestCatchAllMessage "ValueError: secret internal detail"
      = "An unexpected error occurred: ValueError: secret internal detail" ∧
    requestCatchAllMessage "ValueError: secret internal detail"
      ≠ requestCatchAllMessage "" :=
  ⟨rfl, by decide⟩

/-- C9 amended: the processing-stage catch-all (lines 272-275) returns the
fixed generic message for every unclassified exception while the log line
carries the exception text and the stack trace; the request-stage catch-all
(line 188) instead embeds the exception text in the message the caller
sees. -/
theorem C9_catchall_messages :
    ∀ (m e trace : String),
      handleParseExc (PyExc.keyError m) = genericUnexpectedMsg ∧
      handleParseExc (PyExc.typeError m) = genericUnexpectedMsg ∧
      handleParseExc (PyExc.attributeError m) = genericUnexpectedMsg ∧
      handleParseExc (PyExc.unboundLocal m) = genericUnexpectedMsg ∧
      parseCatchAllLog e trace = "Unexpected Error: " ++ e ++ " " ++ trace ∧
      requestCatchAllMessage e = "An unexpected error occurred: " ++ e :=
  fun _ _ _ => ⟨rfl, rfl, rfl, rfl, rfl, rfl⟩

end Calendarize
